import Mathlib

/-!
Verification of the `aiida-chemshell` plugin sources.

The Python sources are embedded shallowly:

  * pure string manipulation becomes Lean functions on `String` / `List Char`;
  * Python exceptions become an explicit error type `PyError`, and fallible
    code returns `PyResult`;
  * Python `float` values that are only passed around (never computed with,
    except one subtraction) are modelled as rationals `ℚ`;
  * external framework objects (AiiDA nodes) are modelled by the data the
    plugin actually reads from them (filenames, file contents, dictionaries).
-/

set_option autoImplicit false

namespace AiidaChemShell

/-- Python exception values raised by the embedded code. -/
inductive PyError where
  | valueError (msg : String)
  | attributeError (attr : String)
  | keyError (key : String)
  | typeError (msg : String)
  | indexError
  deriving DecidableEq, Repr

/-- Result of running a piece of Python code: a value or a raised exception. -/
inductive PyResult (α : Type) where
  | ok (a : α)
  | raise (e : PyError)
  deriving DecidableEq, Repr

/-- `s.upper()` for the ASCII identifiers used by the theory enums. -/
def pyUpper (s : String) : String :=
  String.mk (s.data.map Char.toUpper)

/-- Right-align in a field of width `w` padded with spaces:
Python format spec `{x:<w>d}` applied to the decimal rendering of `x`. -/
def padLeftS (w : Nat) (s : String) : String :=
  String.mk (List.replicate (w - s.length) ' ') ++ s

/-- Left-align in a field of width `w` padded with spaces:
Python format spec `{x:<w>s}`. -/
def padRightS (w : Nat) (s : String) : String :=
  s ++ String.mk (List.replicate (w - s.length) ' ')

/-- Zero-pad a decimal number to width 3: Python format spec `{x:03d}`. -/
def zfill3 (n : Nat) : String :=
  let s := toString n
  String.mk (List.replicate (3 - s.length) '0') ++ s

/-- Drop the trailing run of the characters `,` and ` ` from a character
list: the list-level core of Python `str.rstrip(", ")`. -/
def rstripList (l : List Char) : List Char :=
  (l.reverse.dropWhile (fun c => c = ',' || c = ' ')).reverse

/-- Python `s.rstrip(", ")`: remove every trailing comma and space. -/
def rstripCommaSpace (s : String) : String :=
  String.mk (rstripList s.data)

/-- Whitespace tokenizer: splits a character list on runs of whitespace,
dropping empty tokens, accumulating the current token in reverse in `acc`. -/
def tokensAux : List Char → List Char → List (List Char)
  | [], acc => if acc.isEmpty then [] else [acc.reverse]
  | c :: cs, acc =>
    if c.isWhitespace then
      if acc.isEmpty then tokensAux cs [] else acc.reverse :: tokensAux cs []
    else tokensAux cs (c :: acc)

/-- Python `s.split()` with no argument: split on runs of whitespace and
drop empty fields. -/
def pySplit (s : String) : List String :=
  (tokensAux s.data []).map String.mk

/-- Accumulate the decimal value of a digit list. -/
def digitsVal (l : List Char) : Nat :=
  l.foldl (fun n c => n * 10 + (c.toNat - 48)) 0

/-- Python `int(s)` on the nonnegative decimal strings that appear in the
trajectory files: surrounding whitespace is ignored; anything that is not a
plain digit string raises `ValueError`, modelled as `none`. -/
def pyParseNat (s : String) : Option Nat :=
  let l := ((s.data.dropWhile Char.isWhitespace).reverse.dropWhile
    Char.isWhitespace).reverse
  if l.isEmpty then none
  else if l.all Char.isDigit then some (digitsVal l) else none

/-- Does `sub` occur as a contiguous sublist of the second argument?
Core of the Python substring test `sub in s`. -/
def charsContain (sub : List Char) : List Char → Bool
  | [] => sub.isEmpty
  | c :: cs => sub.isPrefixOf (c :: cs) || charsContain sub cs

/-- Python `sub in s` on strings. -/
def pyContains (s sub : String) : Bool :=
  charsContain sub.data s.data

/-! ## `aiida_chemshell/utils.py` -/

/-- The member names of the `ChemShellQMTheory` enum
(`aiida_chemshell/utils.py`, lines 8-24). -/
def qmTheoryNames : List String :=
  ["NONE", "CASTEP", "CP2K", "DFTBP", "FHI_AIMS", "GAMESS_UK", "GAUSSIAN",
   "LSDALTON", "MNDO", "MOLPRO", "NWCHEM", "ORCA", "PYSCF", "TURBOMOLE"]

/-- The member names of the `ChemShellMMTheory` enum
(`aiida_chemshell/utils.py`, lines 27-33). -/
def mmTheoryNames : List String :=
  ["NONE", "DL_POLY", "GULP", "NAMD"]

/-- A Python value stored in a parameter dictionary, as seen by
`generate_parameter_string`: either a `str`, or any other object,
represented by the string its default conversion `str(value)` yields. -/
inductive PyScalar where
  | str (s : String)
  | other (repr : String)
  deriving DecidableEq, Repr

/-- One `key=value` fragment of the parameter string: string values are
wrapped in single quotes, everything else is rendered by `str(value)`
(`utils.py`, lines 83-86, without the trailing separator). -/
def renderParam (k : String) (v : PyScalar) : String :=
  match v with
  | .str s => k ++ "=\x27" ++ s ++ "\x27"
  | .other r => k ++ "=" ++ r

/-- The accumulation loop of `generate_parameter_string` (`utils.py`,
lines 80-86): walk the dictionary in insertion order, skip the key
`"theory"`, and append each rendered entry followed by `", "`. -/
def gpsAux : List (String × PyScalar) → String
  | [] => ""
  | (k, v) :: rest =>
    (if k = "theory" then "" else renderParam k v ++ ", ") ++ gpsAux rest

/-- `generate_parameter_string` (`utils.py`, lines 61-87): the accumulated
string with `rstrip(", ")` applied at the end. The dictionary is modelled
as its entry list in insertion order. -/
def generate_parameter_string (params : List (String × PyScalar)) : String :=
  rstripCommaSpace (gpsAux params)

/-- The rendered entries of the dictionary, in insertion order, with the
`"theory"` entry omitted. -/
def renderedEntries (params : List (String × PyScalar)) : List String :=
  params.filterMap fun kv =>
    if kv.1 = "theory" then none else some (renderParam kv.1 kv.2)

/-- Join a list of strings, terminating every element with `", "`. -/
def joinSep : List String → String
  | [] => ""
  | e :: rest => e ++ ", " ++ joinSep rest

/-- Join a list of strings with the separator `", "` placed only between
elements: the "joined by a comma and a space" of the claim. -/
def joinWithCommaSpace : List String → String
  | [] => ""
  | [e] => e
  | e :: rest => e ++ ", " ++ joinWithCommaSpace rest

/-- The output described by the claim: the rendered entries joined
by `", "`. -/
def paramStringSpec (params : List (String × PyScalar)) : String :=
  joinWithCommaSpace (renderedEntries params)

theorem gpsAux_eq_joinSep (params : List (String × PyScalar)) :
    gpsAux params = joinSep (renderedEntries params) := by
  induction params with
  | nil => rfl
  | cons kv rest ih =>
    obtain ⟨k, v⟩ := kv
    by_cases hk : k = "theory" <;>
      simp [gpsAux, renderedEntries, joinSep, hk, ih, List.filterMap_cons]

theorem data_append (a b : String) : (a ++ b).data = a.data ++ b.data := rfl

theorem rstripList_sep (x : List Char) :
    rstripList (x ++ [',', ' ']) = rstripList x := by
  unfold rstripList
  rw [List.reverse_append]
  rfl

theorem rstripList_append_of_eq (u v : List Char) (h : rstripList v = []) :
    rstripList (u ++ v) = rstripList u := by
  unfold rstripList at *
  rw [List.reverse_append, List.dropWhile_append, if_pos]
  rw [List.isEmpty_iff]
  rw [← List.reverse_eq_nil_iff]
  exact h

theorem rstripList_append_of_ne (u v : List Char) (h : rstripList v ≠ []) :
    rstripList (u ++ v) = u ++ rstripList v := by
  unfold rstripList at *
  rw [List.reverse_append, List.dropWhile_append, if_neg, List.reverse_append,
    List.reverse_reverse]
  rw [List.isEmpty_iff, ← List.reverse_eq_nil_iff]
  exact h

theorem joinSep_cons_data (a : String) (l : List String) :
    (joinSep (a :: l)).data = (a.data ++ [',', ' ']) ++ (joinSep l).data := by
  show ((a ++ ", ") ++ joinSep l).data = _
  rw [data_append, data_append]

theorem joinWith_cons_cons_data (a b : String) (t : List String) :
    (joinWithCommaSpace (a :: b :: t)).data =
      (a.data ++ [',', ' ']) ++ (joinWithCommaSpace (b :: t)).data := by
  show ((a ++ ", ") ++ joinWithCommaSpace (b :: t)).data = _
  rw [data_append, data_append]

theorem rstripList_joinSep (l : List String) :
    rstripList (joinSep l).data = rstripList (joinWithCommaSpace l).data := by
  induction l with
  | nil => rfl
  | cons a rest ih =>
    cases rest with
    | nil =>
      rw [joinSep_cons_data]
      show rstripList ((a.data ++ [',', ' ']) ++ []) = rstripList a.data
      rw [List.append_nil, rstripList_sep]
    | cons b t =>
      rw [joinSep_cons_data, joinWith_cons_cons_data]
      by_cases h : rstripList (joinWithCommaSpace (b :: t)).data = []
      · rw [rstripList_append_of_eq _ _ (ih.trans h),
          rstripList_append_of_eq _ _ h]
      · rw [rstripList_append_of_ne _ _ (fun hc => h (ih.symm.trans hc)),
          rstripList_append_of_ne _ _ h, ih]

/-- C8 counterexample: for the one-entry dictionary whose (non-string)
value has default string conversion `"1,"`, the code returns `"k=1"`
(the final `rstrip(", ")` eats the trailing comma of the value itself),
while the claimed plain join returns `"k=1,"`. -/
theorem generate_parameter_string_rstrip_counterexample :
    generate_parameter_string [("k", PyScalar.other "1,")] = "k=1" ∧
    paramStringSpec [("k", PyScalar.other "1,")] = "k=1," ∧
    ("k=1" : String) ≠ "k=1," := by
  refine ⟨by decide, by decide, by decide⟩

/-- C8 (amended): `generate_parameter_string` renders the entries in
insertion order, omitting the `"theory"` key, wrapping string values in
single quotes and rendering other values by their default string
conversion, joins them with `", "`, and then strips every trailing comma
and space; on a dictionary that is empty or holds only the `"theory"` key
the join is empty, so the result is the empty string.  This agrees with
the claimed plain join except when the last rendered value itself ends in
a comma or a space. -/
theorem generate_parameter_string_join (params : List (String × PyScalar)) :
    generate_parameter_string params = rstripCommaSpace (paramStringSpec params) := by
  unfold generate_parameter_string rstripCommaSpace paramStringSpec
  rw [gpsAux_eq_joinSep]
  exact congrArg String.mk (rstripList_joinSep (renderedEntries params))

/-! ## `aiida_chemshell/calculations/splt_trajectory.py`: `generate_script`

`SplitTrajectory.generate_script` (lines 100-134) returns a fixed Python
script.  The definitions below embed the semantics of that script.  Its
inputs are the line lists of the two trajectory files (`readlines`), and
its effect is the list of `(filename, contents)` pairs it writes, in
order.  The composition of Python `float(tok)` parsing with the format
spec `{x:12.8f}` is kept abstract as a parameter `fmtF : String →
Option String` (`none` models the `ValueError` of `float` on a
non-numeric token); every theorem below holds for every such formatter.
A run returning `none` models the script dying with an uncaught
exception. -/

/-- The filename `f"trajectory_{step:03d}.xyz"` of the script. -/
def trajFileName (step : Nat) : String :=
  "trajectory_" ++ zfill3 step ++ ".xyz"

/-- The first two writes for a step: `f"{natms:10d}"` followed by the
`Properties=...` header line with the step number. -/
def stepFileHead (natms step : Nat) : String :=
  padLeftS 10 (toString natms) ++
    "\nProperties=\"species:S:1:pos:R:3:force:R:3\" Step=" ++ toString step

/-- One atom line of the script: `xyz_str.format(...)` applied to fields
0-3 of the split position line and fields 1-3 of the split force line;
`none` when a field is missing (`IndexError`) or the formatter fails
(`ValueError` of `float`). -/
def atomLine (fmtF : String → Option String) (pl fl : String) : Option String :=
  match (pySplit pl).get? 0, ((pySplit pl).get? 1).bind fmtF,
      ((pySplit pl).get? 2).bind fmtF, ((pySplit pl).get? 3).bind fmtF,
      ((pySplit fl).get? 1).bind fmtF, ((pySplit fl).get? 2).bind fmtF,
      ((pySplit fl).get? 3).bind fmtF with
  | some sp, some x, some y, some z, some fx, some fy, some fz =>
    some ("\n" ++ padRightS 8 sp ++ " " ++ x ++ " " ++ y ++ " " ++ z ++ " "
      ++ fx ++ " " ++ fy ++ " " ++ fz)
  | _, _, _, _, _, _, _ => none

/-- The inner `for j in range(natms)` loop of the script, starting at
atom offset `j` with `rem` atoms still to write: concatenates the atom
lines for `path[i+j]` / `force[i+j]`; `none` on any index or parse
error. -/
def buildAtomsFrom (fmtF : String → Option String) (path force : List String)
    (i : Nat) : Nat → Nat → Option String
  | _, 0 => some ""
  | j, rem + 1 =>
    match path.get? (i + j), force.get? (i + j) with
    | some pl, some fl =>
      match atomLine fmtF pl fl with
      | some l =>
        match buildAtomsFrom fmtF path force i (j + 1) rem with
        | some rest => some (l ++ rest)
        | none => none
      | none => none
    | _, _ => none

/-- The outer `while i < len(path)` loop of the script.  Each iteration
writes one step file and advances `i` by `natms + 2`; since the step is
at least 2, `path.length + 1` units of fuel always suffice, so the fuel
never runs out when entered through `runSplitScript`. -/
def splitStep (fmtF : String → Option String) (path force : List String)
    (natms : Nat) : Nat → Nat → Nat → Option (List (String × String))
  | 0, _, _ => none
  | fuel + 1, i, step =>
    if i < path.length then
      match buildAtomsFrom fmtF path force i 0 natms with
      | some atoms =>
        match splitStep fmtF path force natms fuel (i + natms + 2) (step + 1) with
        | some rest =>
          some ((trajFileName step, stepFileHead natms step ++ atoms) :: rest)
        | none => none
      | none => none
    else some []

/-- The whole script: read `natms` from the first position line
(`natms = int(path[0])`), then run the loop from `i = 2`, `step = 0`.
The result is the written files in order, or `none` if the script dies
with an exception. -/
def runSplitScript (fmtF : String → Option String)
    (path force : List String) : Option (List (String × String)) :=
  match (path.get? 0).bind pyParseNat with
  | none => none
  | some natms => splitStep fmtF path force natms (path.length + 1) 2 0

/-! Claim-side description of the trajectory files (C2). -/

/-- One step block of a trajectory file as the claim describes it: two
header lines followed by the atom lines. -/
structure TrajBlock where
  header1 : String
  header2 : String
  atoms : List String
  deriving DecidableEq, Repr

/-- The lines of a block, in file order. -/
def blockLines (b : TrajBlock) : List String :=
  b.header1 :: b.header2 :: b.atoms

/-- Field `m` of the whitespace-split line `l`, formatted; total version
of the partial accesses, used only where the claim guarantees the fields
exist. -/
def fmtTok (fmtF : String → Option String) (l : String) (m : Nat) : String :=
  (((pySplit l).get? m).bind fmtF).getD ""

/-- The atom line the claim describes: species symbol and three position
fields from the position line combined with three force fields from the
force line. -/
def claimAtomLine (fmtF : String → Option String) (pl fl : String) : String :=
  "\n" ++ padRightS 8 (((pySplit pl).get? 0).getD "") ++ " "
    ++ fmtTok fmtF pl 1 ++ " " ++ fmtTok fmtF pl 2 ++ " " ++ fmtTok fmtF pl 3
    ++ " " ++ fmtTok fmtF fl 1 ++ " " ++ fmtTok fmtF fl 2 ++ " "
    ++ fmtTok fmtF fl 3

/-- Concatenation of a list of strings. -/
def strJoin : List String → String
  | [] => ""
  | a :: l => a ++ strJoin l

/-- The step-`k` file the claim describes: atom count, header line with
`Step=k`, and the atom lines pairing position block `k` with force
block `k`. -/
def claimStepFile (fmtF : String → Option String) (natms step : Nat)
    (pb fb : TrajBlock) : String :=
  stepFileHead natms step ++
    strJoin ((pb.atoms.zip fb.atoms).map fun pf => claimAtomLine fmtF pf.1 pf.2)

/-- The full output the claim describes, one file per block pair,
step numbers counting up from `step`. -/
def claimFilesFrom (fmtF : String → Option String) (natms : Nat) :
    Nat → List TrajBlock → List TrajBlock → List (String × String)
  | _, [], _ => []
  | _, _ :: _, [] => []
  | step, pb :: ps, fb :: fs =>
    (trajFileName step, claimStepFile fmtF natms step pb fb) ::
      claimFilesFrom fmtF natms (step + 1) ps fs

/-- A line is well formed for the script when field 0 exists and fields
1-3 exist and are accepted by the float formatter. -/
def LineOK (fmtF : String → Option String) (l : String) : Prop :=
  ((pySplit l).get? 0).isSome = true ∧
  (((pySplit l).get? 1).bind fmtF).isSome = true ∧
  (((pySplit l).get? 2).bind fmtF).isSome = true ∧
  (((pySplit l).get? 3).bind fmtF).isSome = true

instance (fmtF : String → Option String) (l : String) :
    Decidable (LineOK fmtF l) := by
  unfold LineOK; infer_instance

theorem atomLine_of_ok (fmtF : String → Option String) (pl fl : String)
    (hp : LineOK fmtF pl) (hf : LineOK fmtF fl) :
    atomLine fmtF pl fl = some (claimAtomLine fmtF pl fl) := by
  obtain ⟨hp0, hp1, hp2, hp3⟩ := hp
  obtain ⟨-, hf1, hf2, hf3⟩ := hf
  rw [Option.isSome_iff_exists] at hp0 hp1 hp2 hp3 hf1 hf2 hf3
  obtain ⟨sp, hsp⟩ := hp0
  obtain ⟨x, hx⟩ := hp1
  obtain ⟨y, hy⟩ := hp2
  obtain ⟨z, hz⟩ := hp3
  obtain ⟨fx, hfx⟩ := hf1
  obtain ⟨fy, hfy⟩ := hf2
  obtain ⟨fz, hfz⟩ := hf3
  unfold atomLine claimAtomLine fmtTok
  rw [hsp, hx, hy, hz, hfx, hfy, hfz]
  rfl

theorem buildAtomsFrom_spec (fmtF : String → Option String)
    (path force : List String) (i : Nat) :
    ∀ (pl fl : List String) (j : Nat),
      (∀ m, m < pl.length → path.get? (i + j + m) = pl.get? m) →
      (∀ m, m < fl.length → force.get? (i + j + m) = fl.get? m) →
      pl.length = fl.length →
      (∀ l ∈ pl, LineOK fmtF l) → (∀ l ∈ fl, LineOK fmtF l) →
      buildAtomsFrom fmtF path force i j pl.length =
        some (strJoin ((pl.zip fl).map fun pf => claimAtomLine fmtF pf.1 pf.2)) := by
  intro pl
  induction pl with
  | nil =>
    intro fl j _ _ hlen _ _
    rfl
  | cons p pt ih =>
    intro fl j hp hf hlen hok hfok
    cases fl with
    | nil => simp at hlen
    | cons f ft =>
      have hgp : path.get? (i + j) = some p := by
        have := hp 0 (by simp)
        simpa using this
      have hgf : force.get? (i + j) = some f := by
        have := hf 0 (by simp)
        simpa using this
      have hal : atomLine fmtF p f = some (claimAtomLine fmtF p f) :=
        atomLine_of_ok fmtF p f (hok p (by simp)) (hfok f (by simp))
      have hrec : buildAtomsFrom fmtF path force i (j + 1) pt.length =
          some (strJoin ((pt.zip ft).map fun pf => claimAtomLine fmtF pf.1 pf.2)) := by
        refine ih ft (j + 1) ?_ ?_ (by simpa using hlen)
          (fun l hl => hok l (by simp [hl])) (fun l hl => hfok l (by simp [hl]))
        · intro m hm
          have := hp (m + 1) (by simp; omega)
          have harith : i + j + (m + 1) = i + (j + 1) + m := by omega
          rw [harith] at this
          simpa using this
        · intro m hm
          have := hf (m + 1) (by simp; omega)
          have harith : i + j + (m + 1) = i + (j + 1) + m := by omega
          rw [harith] at this
          simpa using this
      show buildAtomsFrom fmtF path force i j (pt.length + 1) = _
      simp only [buildAtomsFrom, hgp, hgf, hal, hrec]
      rfl

theorem join_blockLines_length (natms : Nat) (pbs : List TrajBlock)
    (h : ∀ b ∈ pbs, b.atoms.length = natms) :
    ((pbs.map blockLines).join).length = pbs.length * (natms + 2) := by
  induction pbs with
  | nil => simp
  | cons b bs ih =>
    have hb : b.atoms.length = natms := h b (by simp)
    simp [blockLines, ih (fun c hc => h c (by simp [hc])), hb]
    ring

theorem claimFilesFrom_length (fmtF : String → Option String) (natms : Nat) :
    ∀ (pbs fbs : List TrajBlock) (step : Nat), pbs.length = fbs.length →
      (claimFilesFrom fmtF natms step pbs fbs).length = pbs.length := by
  intro pbs
  induction pbs with
  | nil => intro fbs step _; rfl
  | cons pb ps ih =>
    intro fbs step hlen
    cases fbs with
    | nil => simp at hlen
    | cons fb fs =>
      simp only [claimFilesFrom, List.length_cons, ih fs (step + 1) (by simpa using hlen)]

theorem splitStep_spec (fmtF : String → Option String) (natms : Nat)
    (hn : 1 ≤ natms) :
    ∀ (pbs fbs : List TrajBlock) (pre fpre path force : List String)
      (fuel step : Nat),
      path = pre ++ (pbs.map blockLines).join →
      force = fpre ++ (fbs.map blockLines).join →
      fpre.length = pre.length →
      pbs.length = fbs.length →
      (∀ b ∈ pbs, b.atoms.length = natms) →
      (∀ b ∈ fbs, b.atoms.length = natms) →
      (∀ b ∈ pbs, ∀ l ∈ b.atoms, LineOK fmtF l) →
      (∀ b ∈ fbs, ∀ l ∈ b.atoms, LineOK fmtF l) →
      pbs.length < fuel →
      splitStep fmtF path force natms fuel (pre.length + 2) step =
        some (claimFilesFrom fmtF natms step pbs fbs) := by
  intro pbs
  induction pbs with
  | nil =>
    intro fbs pre fpre path force fuel step hpath hforce _ hlen _ _ _ _ hfuel
    cases fbs with
    | cons fb fs => simp at hlen
    | nil =>
      cases fuel with
      | zero => omega
      | succ f =>
        have hp : path = pre := by simpa using hpath
        simp only [splitStep, hp]
        rw [if_neg (by omega)]
        rfl
  | cons pb ps ih =>
    intro fbs pre fpre path force fuel step hpath hforce hflen hlen hpa hfa hok hfok hfuel
    cases fbs with
    | nil => simp at hlen
    | cons fb fs =>
      cases fuel with
      | zero => omega
      | succ f =>
        have hpbA : pb.atoms.length = natms := hpa pb (by simp)
        have hfbA : fb.atoms.length = natms := hfa fb (by simp)
        -- reassociate the line lists around the leading block
        have hpath2 : path = (pre ++ [pb.header1, pb.header2]) ++
            (pb.atoms ++ (ps.map blockLines).join) := by
          rw [hpath]; simp [blockLines]
        have hforce2 : force = (fpre ++ [fb.header1, fb.header2]) ++
            (fb.atoms ++ (fs.map blockLines).join) := by
          rw [hforce]; simp [blockLines]
        have hplen : path.length =
            pre.length + 2 + (pb.atoms.length + ((ps.map blockLines).join).length) := by
          rw [hpath2]; simp; omega
        have hcond : pre.length + 2 < path.length := by omega
        have hatoms : buildAtomsFrom fmtF path force (pre.length + 2) 0
            pb.atoms.length =
            some (strJoin ((pb.atoms.zip fb.atoms).map fun pf =>
              claimAtomLine fmtF pf.1 pf.2)) := by
          refine buildAtomsFrom_spec fmtF path force (pre.length + 2)
            pb.atoms fb.atoms 0 ?_ ?_ (by rw [hpbA, hfbA])
            (hok pb (by simp)) (hfok fb (by simp))
          · intro m hm
            rw [hpath2]
            have h1 : (pre ++ [pb.header1, pb.header2]).length ≤
                pre.length + 2 + 0 + m := by simp
            rw [List.get?_append_right h1]
            have h2 : pre.length + 2 + 0 + m -
                (pre ++ [pb.header1, pb.header2]).length = m := by simp
            rw [h2]
            exact List.get?_append hm
          · intro m hm
            rw [hforce2]
            have h1 : (fpre ++ [fb.header1, fb.header2]).length ≤
                pre.length + 2 + 0 + m := by simp [hflen]
            rw [List.get?_append_right h1]
            have h2 : pre.length + 2 + 0 + m -
                (fpre ++ [fb.header1, fb.header2]).length = m := by
              simp [hflen]
            rw [h2]
            exact List.get?_append hm
        have hrec : splitStep fmtF path force natms f
            ((pre ++ blockLines pb).length + 2) (step + 1) =
            some (claimFilesFrom fmtF natms (step + 1) ps fs) := by
          refine ih fs (pre ++ blockLines pb) (fpre ++ blockLines fb) path force
            f (step + 1) ?_ ?_ ?_ (by simpa using hlen)
            (fun b hb => hpa b (by simp [hb])) (fun b hb => hfa b (by simp [hb]))
            (fun b hb => hok b (by simp [hb])) (fun b hb => hfok b (by simp [hb]))
            (by simpa using hfuel)
          · rw [hpath]; simp
          · rw [hforce]; simp
          · simp [blockLines, hflen, hpbA, hfbA]
        have harith : pre.length + 2 + natms + 2 = (pre ++ blockLines pb).length + 2 := by
          simp [blockLines, hpbA]
          omega
        simp only [splitStep]
        rw [if_pos hcond, hpbA] at *
        rw [hatoms, harith, hrec]
        rfl

/-- C2 counterexample: two blocks of two header lines followed by
`natms = 0` atom lines each (the integer on the first position line is
0, so the premises of the claim are met with S = 2).  The script writes
a single file, not the claimed two: the loop advances by `natms + 2 = 2`
and its guard `i < len(path)` already fails at the start of the last
block. -/
theorem generate_script_zero_atoms_counterexample :
    runSplitScript (fun s => some s) ["0", "h", "0", "h"] ["0", "h", "0", "h"] =
      some [(trajFileName 0, stepFileHead 0 0)] ∧
    [(trajFileName 0, stepFileHead 0 0)].length ≠ 2 := by
  exact ⟨by decide, by decide⟩

/-- C2 (amended, adding the restriction `1 ≤ natms` that the
counterexample forces): for every pair of position and force files made
of `S ≥ 1` blocks of two header lines followed by `natms ≥ 1` atom
lines, where `natms` is the integer on the first position line, the
script writes exactly `S` files; the file of step `k` is named
`trajectory_{k:03d}.xyz` and contains the atom count, the
`Properties="species:S:1:pos:R:3:force:R:3" Step=k` header, and `natms`
atom lines, each pairing the species and position fields of atom line
`j` of position block `k` with the force fields of atom line `j` of
force block `k`. -/
theorem generate_script_splits_blocks (fmtF : String → Option String)
    (pbs fbs : List TrajBlock) (natms : Nat) (path force : List String)
    (hpath : path = (pbs.map blockLines).join)
    (hforce : force = (fbs.map blockLines).join)
    (hS : 1 ≤ pbs.length)
    (hsame : pbs.length = fbs.length)
    (hn : 1 ≤ natms)
    (hpa : ∀ b ∈ pbs, b.atoms.length = natms)
    (hfa : ∀ b ∈ fbs, b.atoms.length = natms)
    (hfirst : (path.get? 0).bind pyParseNat = some natms)
    (hok : ∀ b ∈ pbs, ∀ l ∈ b.atoms, LineOK fmtF l)
    (hfok : ∀ b ∈ fbs, ∀ l ∈ b.atoms, LineOK fmtF l) :
    runSplitScript fmtF path force = some (claimFilesFrom fmtF natms 0 pbs fbs) ∧
    (claimFilesFrom fmtF natms 0 pbs fbs).length = pbs.length := by
  constructor
  · unfold runSplitScript
    rw [hfirst]
    have hfuel : pbs.length < path.length + 1 := by
      have h1 : path.length = pbs.length * (natms + 2) := by
        rw [hpath, join_blockLines_length natms pbs hpa]
      have h2 : pbs.length * 1 ≤ pbs.length * (natms + 2) :=
        Nat.mul_le_mul_left pbs.length (by omega)
      omega
    have := splitStep_spec fmtF natms hn pbs fbs [] [] path force
      (path.length + 1) 0 (by simpa using hpath) (by simpa using hforce) rfl
      hsame hpa hfa hok hfok hfuel
    simpa using this
  · exact claimFilesFrom_length fmtF natms pbs fbs 0 hsame

/-- C2 witness: a one-step trajectory with one atom, formatter kept as
the identity. -/
theorem generate_script_splits_blocks_witness :
    runSplitScript (fun s => some s)
      ["1", "hdr", "O 0.1 0.2 0.3"] ["1", "hdr", "O 0.5 0.6 0.7"] =
      some (claimFilesFrom (fun s => some s) 1 0
        [⟨"1", "hdr", ["O 0.1 0.2 0.3"]⟩] [⟨"1", "hdr", ["O 0.5 0.6 0.7"]⟩]) ∧
    (claimFilesFrom (fun s => some s) 1 0
      [⟨"1", "hdr", ["O 0.1 0.2 0.3"]⟩]
      [⟨"1", "hdr", ["O 0.5 0.6 0.7"]⟩]).length = 1 :=
  generate_script_splits_blocks (fun s => some s)
    [⟨"1", "hdr", ["O 0.1 0.2 0.3"]⟩] [⟨"1", "hdr", ["O 0.5 0.6 0.7"]⟩] 1
    ["1", "hdr", "O 0.1 0.2 0.3"] ["1", "hdr", "O 0.5 0.6 0.7"]
    (by decide) (by decide) (by decide) (by decide) (by decide) (by decide)
    (by decide) (by decide) (by decide) (by decide)

/-! ## `SplitTrajectory.prepare_for_submission`
(`aiida_chemshell/calculations/splt_trajectory.py`, lines 54-98) -/

/-- The resources options of the job: the two counts defaulted in
`SplitTrajectory.define` plus the optional total count; `.get` on the
dictionary is modelled by the record fields. -/
structure Resources where
  num_machines : Nat
  num_mpiprocs_per_machine : Nat
  tot_num_mpiprocs : Option Nat
  deriving DecidableEq, Repr

/-- A `SinglefileData` input node, as read by the calculation: its uuid
and its stored filename. -/
structure FileNode where
  uuid : String
  filename : String
  deriving DecidableEq, Repr

/-- An element of `code_info.cmdline_params`: the Python list mixes
strings and the integer process count. -/
inductive CmdParam where
  | str (s : String)
  | num (n : Nat)
  deriving DecidableEq, Repr

/-- The `cmdline_params` computation (lines 60-76): if the substring
`"chemsh.x"` occurs in the executable path the parameters are just the
script name; otherwise `-np n` is prepended, where `n` is the
`tot_num_mpiprocs` resource if present and otherwise
`num_machines * num_mpiprocs_per_machine`. -/
def cmdline_params (executablePath : String) (res : Resources) : List CmdParam :=
  if pyContains executablePath "chemsh.x" then [.str "input.py"]
  else
    [.str "-np",
     .num (res.tot_num_mpiprocs.getD
       (res.num_machines * res.num_mpiprocs_per_machine)),
     .str "input.py"]

/-- The information assembled by `prepare_for_submission` that the
claims are about. -/
structure SubmissionInfo where
  scriptFilename : String
  cmdlineParams : List CmdParam
  retrieveTemporaryList : List String
  localCopyList : List (String × String × String)
  deriving DecidableEq, Repr

/-- `prepare_for_submission` (lines 54-98): writes the generated script
to `input.py`, builds the command line, retrieves `trajectory*xyz`
temporarily, and stages both input files under their own stored
filenames. -/
def prepare_for_submission (path force : FileNode) (executablePath : String)
    (res : Resources) : SubmissionInfo where
  scriptFilename := "input.py"
  cmdlineParams := cmdline_params executablePath res
  retrieveTemporaryList := ["trajectory*xyz"]
  localCopyList :=
    [(path.uuid, path.filename, path.filename),
     (force.uuid, force.filename, force.filename)]

/-- The filenames the generated inline script opens: the two hardcoded
`open(...)` calls of `generate_script` (lines 102-105). -/
def scriptReadFiles : List String :=
  ["path.xyz", "path_force.xyz"]

/-- C3 counterexample: for input files named `my_traj.xyz` and
`my_force.xyz`, the staged filenames differ from the filenames the
emitted script opens, so the claimed equality fails for this choice of
input filenames. -/
theorem local_copy_list_filenames_counterexample :
    ((prepare_for_submission ⟨"u1", "my_traj.xyz"⟩ ⟨"u2", "my_force.xyz"⟩
        "/opt/chemsh/bin/chemsh.x" ⟨1, 2, none⟩).localCopyList).map
      (fun t => t.2.2) = ["my_traj.xyz", "my_force.xyz"] ∧
    (["my_traj.xyz", "my_force.xyz"] : List String) ≠ scriptReadFiles := by
  exact ⟨by decide, by decide⟩

/-- C3 (amended): `prepare_for_submission` writes the inline script to
`input.py`, lists `trajectory*xyz` for temporary retrieval, and stages
the `path` and `force` inputs under their own stored filenames; these
staged filenames equal the filenames the emitted script opens exactly
when the inputs are named `path.xyz` and `path_force.xyz` (the names the
upstream ChemShell optimisation gives its trajectory outputs), not for
every choice of input filenames. -/
theorem prepare_for_submission_staging (path force : FileNode)
    (executablePath : String) (res : Resources) :
    (prepare_for_submission path force executablePath res).scriptFilename
        = "input.py" ∧
    (prepare_for_submission path force executablePath res).retrieveTemporaryList
        = ["trajectory*xyz"] ∧
    ((prepare_for_submission path force executablePath res).localCopyList).map
        (fun t => t.2.2) = [path.filename, force.filename] ∧
    (((prepare_for_submission path force executablePath res).localCopyList).map
        (fun t => t.2.2) = scriptReadFiles ↔
      (path.filename = "path.xyz" ∧ force.filename = "path_force.xyz")) := by
  refine ⟨rfl, rfl, rfl, ?_⟩
  constructor
  · intro h
    simp [prepare_for_submission, scriptReadFiles] at h
    exact h
  · rintro ⟨h1, h2⟩
    simp [prepare_for_submission, scriptReadFiles, h1, h2]

/-- C10: the command line is a function of the executable path and the
resources alone; with `chemsh.x` in the path it is `["input.py"]`, and
otherwise `["-np", n, "input.py"]` with `n` the `tot_num_mpiprocs`
resource if present and else `num_machines * num_mpiprocs_per_machine`. -/
theorem cmdline_params_spec (executablePath : String) (res : Resources) :
    (prepare_for_submission ⟨"u", "f"⟩ ⟨"v", "g"⟩ executablePath res).cmdlineParams
        = cmdline_params executablePath res ∧
    (pyContains executablePath "chemsh.x" = true →
      cmdline_params executablePath res = [.str "input.py"]) ∧
    (pyContains executablePath "chemsh.x" = false →
      (∀ t, res.tot_num_mpiprocs = some t →
        cmdline_params executablePath res =
          [.str "-np", .num t, .str "input.py"]) ∧
      (res.tot_num_mpiprocs = none →
        cmdline_params executablePath res =
          [.str "-np", .num (res.num_machines * res.num_mpiprocs_per_machine),
           .str "input.py"])) := by
  refine ⟨rfl, fun h => ?_, fun h => ⟨fun t ht => ?_, fun ht => ?_⟩⟩
  · simp [cmdline_params, h]
  · simp [cmdline_params, h, ht]
  · simp [cmdline_params, h, ht]

/-- C10 witness: both branches at concrete inputs. -/
theorem cmdline_params_spec_witness :
    cmdline_params "/opt/chemsh/bin/chemsh.x" ⟨1, 2, none⟩
        = [.str "input.py"] ∧
    cmdline_params "/usr/bin/mpirun" ⟨3, 4, none⟩
        = [.str "-np", .num 12, .str "input.py"] ∧
    cmdline_params "/usr/bin/mpirun" ⟨3, 4, some 7⟩
        = [.str "-np", .num 7, .str "input.py"] :=
  ⟨(cmdline_params_spec "/opt/chemsh/bin/chemsh.x" ⟨1, 2, none⟩).2.1 (by decide),
   ((cmdline_params_spec "/usr/bin/mpirun" ⟨3, 4, none⟩).2.2 (by decide)).2 rfl,
   ((cmdline_params_spec "/usr/bin/mpirun" ⟨3, 4, some 7⟩).2.2 (by decide)).1 7 rfl⟩

/-! ## `aiida_chemshell/parsers/split_trajectory.py` -/

/-- The exit codes that `SplitTrajectory.define` registers on its
process spec: none — the `define` of lines 13-53 declares inputs,
outputs and metadata defaults but contains no `spec.exit_code` call. -/
def splitTrajectoryDeclaredExitCodes : List (String × Nat) := []

/-- `SplitTrajectoryParser.parse` (lines 13-34).  The retrieved
temporary folder is modelled as its list of `(name, contents)` entries
(directory entries have pairwise distinct names); the files are copied
into a fresh `FolderData` in iteration order.  `self.exit_codes` is the
exit-code table of the calculation spec: the codes of the external
`CalcJob` base class (`baseExitCodes`, a parameter here, all
framework-generic) together with the codes `SplitTrajectory.define`
declares; looking up a name absent from the table raises
`AttributeError`.  On success the result is the exit status together
with the registered outputs. -/
def SplitTrajectoryParser_parse (baseExitCodes : List (String × Nat))
    (tmpFolder : List (String × String)) :
    PyResult (Nat × List (String × List (String × String))) :=
  let trajFolder := tmpFolder
  if trajFolder.length < 1 then
    match List.lookup "ERROR_NO_TRAJECTORY_FILES"
        (baseExitCodes ++ splitTrajectoryDeclaredExitCodes) with
    | some code => .ok (code, [])
    | none => .raise (.attributeError "ERROR_NO_TRAJECTORY_FILES")
  else .ok (0, [("trajectory_folder", trajFolder)])

/-- C1: on a folder with at least one file, `parse` registers exactly
the output `trajectory_folder` holding every retrieved file and returns
exit code 0; but on an empty folder, because neither the `CalcJob` base
spec nor `SplitTrajectory.define` declares an exit code named
`ERROR_NO_TRAJECTORY_FILES`, the attribute access
`self.exit_codes.ERROR_NO_TRAJECTORY_FILES` raises `AttributeError`
instead of returning the claimed exit code. -/
theorem split_trajectory_parse_spec (baseExitCodes : List (String × Nat))
    (tmpFolder : List (String × String))
    (hbase : List.lookup "ERROR_NO_TRAJECTORY_FILES" baseExitCodes = none) :
    SplitTrajectoryParser_parse baseExitCodes [] =
      .raise (.attributeError "ERROR_NO_TRAJECTORY_FILES") ∧
    (tmpFolder ≠ [] →
      SplitTrajectoryParser_parse baseExitCodes tmpFolder =
        .ok (0, [("trajectory_folder", tmpFolder)])) := by
  constructor
  · unfold SplitTrajectoryParser_parse splitTrajectoryDeclaredExitCodes
    rw [List.append_nil, hbase]
    rfl
  · intro h
    have hlen : ¬ tmpFolder.length < 1 := by
      cases tmpFolder with
      | nil => exact absurd rfl h
      | cons a t => simp
    unfold SplitTrajectoryParser_parse
    rw [if_neg hlen]

/-- C1 witness: the base exit codes of the framework `CalcJob` spec are
generic scheduler and retrieval errors; none is named
`ERROR_NO_TRAJECTORY_FILES`. -/
theorem split_trajectory_parse_spec_witness :
    SplitTrajectoryParser_parse
        [("ERROR_NO_RETRIEVED_FOLDER", 100), ("ERROR_OUTPUT_STDOUT_MISSING", 110)]
        [] = .raise (.attributeError "ERROR_NO_TRAJECTORY_FILES") ∧
    SplitTrajectoryParser_parse
        [("ERROR_NO_RETRIEVED_FOLDER", 100), ("ERROR_OUTPUT_STDOUT_MISSING", 110)]
        [("trajectory_000.xyz", "c0"), ("trajectory_001.xyz", "c1")] =
      .ok (0, [("trajectory_folder",
        [("trajectory_000.xyz", "c0"), ("trajectory_001.xyz", "c1")])]) := by
  have h := split_trajectory_parse_spec
    [("ERROR_NO_RETRIEVED_FOLDER", 100), ("ERROR_OUTPUT_STDOUT_MISSING", 110)]
    [("trajectory_000.xyz", "c0"), ("trajectory_001.xyz", "c1")] (by decide)
  exact ⟨h.1, h.2 (by decide)⟩

/-! ## `aiida_chemshell/workflows/clf_ultra.py` -/

/-- A Python object living in an AiiDA `Dict` node: a number (Python
floats are modelled as rationals) or a string-keyed dictionary. -/
inductive PyObj where
  | num (q : ℚ)
  | dict (entries : List (String × PyObj))

/-- Python subscription `o[k]`: `KeyError` on a missing key,
`TypeError` when the object is not a dictionary. -/
def pyGetItem (o : PyObj) (k : String) : PyResult PyObj :=
  match o with
  | .num _ => .raise (.typeError "object is not subscriptable")
  | .dict es =>
    match List.lookup k es with
    | some v => .ok v
    | none => .raise (.keyError k)

/-- `calculate_difference` (`clf_ultra.py`, lines 172-184): reads
`ml_results["info"]["mace_mp_energy"]` and returns a `Float` node whose
value is the difference `qm_energy - ml_energy`. -/
def calculate_difference (qm_energy : ℚ) (ml_results : PyObj) : PyResult ℚ :=
  match pyGetItem ml_results "info" with
  | .raise e => .raise e
  | .ok info =>
    match pyGetItem info "mace_mp_energy" with
    | .raise e => .raise e
    | .ok (.num ml_energy) => .ok (qm_energy - ml_energy)
    | .ok (.dict _) => .raise (.typeError "unsupported operand type")

/-- The value at the key path `["info"]["mace_mp_energy"]` when present
as a number: the premise of C7. -/
def maceEnergyOf (o : PyObj) : Option ℚ :=
  match o with
  | .num _ => none
  | .dict es =>
    match List.lookup "info" es with
    | some (.dict is) =>
      match List.lookup "mace_mp_energy" is with
      | some (.num q) => some q
      | _ => none
    | _ => none

/-- The result of the framework `_parse_xyz` call, modelled as the text
it was handed (the parse itself is external framework code). -/
structure ParsedStructure where
  xyz : String
  deriving DecidableEq

/-- The calcfunction `extract_final_structure` (`clf_ultra.py`, lines
163-169): picks the last entry of the folder object-name list
(`[-1]` raises `IndexError` on an empty list) and parses the content of
that file, with a newline appended, into a structure. -/
def extract_final_structure (folder : List (String × String)) :
    PyResult ParsedStructure :=
  match folder.getLast? with
  | none => .raise .indexError
  | some nc => .ok ⟨nc.2 ++ "\n"⟩

/-- The outputs of the ChemShell geometry-optimisation calculation that
the workchain reads: the two trajectory file nodes and the final
energy. -/
structure OptOuts where
  trajectory_path : FileNode
  trajectory_force : FileNode
  energy : ℚ
  deriving DecidableEq

/-- The outputs of the `SplitTrajectory` calculation that the workchain
reads. -/
structure SplitOuts where
  trajectory_folder : List (String × String)
  deriving DecidableEq

/-- The environment of one workchain execution: the outputs the three
submitted external calculations come back with. -/
structure WCEnv where
  optOuts : OptOuts
  splitOuts : SplitOuts
  mlipResults : PyObj

/-- The workchain context `self.ctx`: every attribute starts absent and
is filled by the step that produces it. -/
structure WCCtx where
  optimise : Option OptOuts
  split_trajectory : Option SplitOuts
  final_structure : Option ParsedStructure
  mlip_sp : Option PyObj
  energy_difference : Option ℚ

/-- The empty initial context. -/
def initWCCtx : WCCtx :=
  ⟨none, none, none, none, none⟩

/-- A value appearing in the workchain outputs map. -/
inductive WCOut where
  | energy (q : ℚ)
  | folder (fs : List (String × String))
  deriving DecidableEq

/-- The six outline steps of `CLFULTRAOptimisationWorkChain.define`
(`clf_ultra.py`, lines 63-70). -/
inductive WCStep where
  | optimise
  | generate_xyz_files
  | extract_final_structure
  | mlip_sp
  | calculate_energy_difference
  | result
  deriving DecidableEq, Repr

/-- `spec.outline(...)`: the step list, in the order the source
declares it. -/
def outline : List WCStep :=
  [.optimise, .generate_xyz_files, .extract_final_structure, .mlip_sp,
   .calculate_energy_difference, .result]

/-- Reading `self.ctx.<attr>`: `AttributeError` when the attribute has
not been set by an earlier step. -/
def ctxGet {α : Type} (o : Option α) (attr : String) : PyResult α :=
  match o with
  | some v => .ok v
  | none => .raise (.attributeError attr)

/-- One outline step (`clf_ultra.py`, lines 72-160).  Submissions are
modelled by taking the submitted calculation outputs from the
environment; every value a step consumes is read from the context
through `ctxGet` exactly where the source reads `self.ctx....`. -/
def runStep (env : WCEnv) (st : WCStep) (s : WCCtx × List (String × WCOut)) :
    PyResult (WCCtx × List (String × WCOut)) :=
  match st, s with
  | .optimise, (ctx, outs) =>
    -- submits ChemShellCalculation on self.inputs.structure
    .ok ({ ctx with optimise := some env.optOuts }, outs)
  | .generate_xyz_files, (ctx, outs) =>
    -- submits SplitTrajectory on the optimisation trajectory outputs
    match ctxGet ctx.optimise "optimise" with
    | .raise e => .raise e
    | .ok opt =>
      match opt.trajectory_path, opt.trajectory_force with
      | _, _ => .ok ({ ctx with split_trajectory := some env.splitOuts }, outs)
  | .extract_final_structure, (ctx, outs) =>
    match ctxGet ctx.split_trajectory "split_trajectory" with
    | .raise e => .raise e
    | .ok split =>
      match extract_final_structure split.trajectory_folder with
      | .raise e => .raise e
      | .ok st => .ok ({ ctx with final_structure := some st }, outs)
  | .mlip_sp, (ctx, outs) =>
    -- submits the mlip.sp calculation on the extracted structure
    match ctxGet ctx.final_structure "final_structure" with
    | .raise e => .raise e
    | .ok _ => .ok ({ ctx with mlip_sp := some env.mlipResults }, outs)
  | .calculate_energy_difference, (ctx, outs) =>
    match ctxGet ctx.optimise "optimise" with
    | .raise e => .raise e
    | .ok opt =>
      match ctxGet ctx.mlip_sp "mlip_sp" with
      | .raise e => .raise e
      | .ok ml =>
        match calculate_difference opt.energy ml with
        | .raise e => .raise e
        | .ok d => .ok ({ ctx with energy_difference := some d }, outs)
  | .result, (ctx, outs) =>
    match ctxGet ctx.optimise "optimise" with
    | .raise e => .raise e
    | .ok opt =>
      match ctxGet ctx.split_trajectory "split_trajectory" with
      | .raise e => .raise e
      | .ok split =>
        match ctxGet ctx.energy_difference "energy_difference" with
        | .raise e => .raise e
        | .ok d =>
          .ok (ctx, outs ++
            [("final_qm_energy", .energy opt.energy),
             ("trajectory_files", .folder split.trajectory_folder),
             ("energy_difference", .energy d)])

/-- Run a list of outline steps in order, stopping at the first raised
exception. -/
def runSteps (env : WCEnv) : List WCStep → WCCtx × List (String × WCOut) →
    PyResult (WCCtx × List (String × WCOut))
  | [], s => .ok s
  | st :: rest, s =>
    match runStep env st s with
    | .raise e => .raise e
    | .ok s2 => runSteps env rest s2

/-- A whole workchain execution: the outline from the empty context. -/
def runWorkChain (env : WCEnv) : PyResult (WCCtx × List (String × WCOut)) :=
  runSteps env outline (initWCCtx, [])

/-- The final context of a successful execution: every attribute set by
the step that computes it. -/
def wcFinalCtx (env : WCEnv) (e : ℚ) : WCCtx where
  optimise := some env.optOuts
  split_trajectory := some env.splitOuts
  final_structure :=
    some ⟨((env.splitOuts.trajectory_folder.getLast?).map Prod.snd).getD "" ++ "\n"⟩
  mlip_sp := some env.mlipResults
  energy_difference := some (env.optOuts.energy - e)

/-- The outputs the `result` step emits. -/
def wcFinalOuts (env : WCEnv) (e : ℚ) : List (String × WCOut) :=
  [("final_qm_energy", .energy env.optOuts.energy),
   ("trajectory_files", .folder env.splitOuts.trajectory_folder),
   ("energy_difference", .energy (env.optOuts.energy - e))]

theorem calculate_difference_of_mace (qm : ℚ) (ml : PyObj) (e : ℚ)
    (h : maceEnergyOf ml = some e) :
    calculate_difference qm ml = .ok (qm - e) := by
  cases ml with
  | num q => simp [maceEnergyOf] at h
  | dict es =>
    cases hinfo : List.lookup "info" es with
    | none => simp [maceEnergyOf, hinfo] at h
    | some info =>
      cases info with
      | num q => simp [maceEnergyOf, hinfo] at h
      | dict is =>
        cases hmace : List.lookup "mace_mp_energy" is with
        | none => simp [maceEnergyOf, hinfo, hmace] at h
        | some v =>
          cases v with
          | dict ds => simp [maceEnergyOf, hinfo, hmace] at h
          | num q =>
            simp [maceEnergyOf, hinfo, hmace] at h
            simp [calculate_difference, pyGetItem, hinfo, hmace, h]

theorem runWorkChain_ok (env : WCEnv) (e : ℚ)
    (hfolder : env.splitOuts.trajectory_folder ≠ [])
    (hml : maceEnergyOf env.mlipResults = some e) :
    runWorkChain env = .ok (wcFinalCtx env e, wcFinalOuts env e) := by
  obtain ⟨nc, hnc⟩ : ∃ nc, env.splitOuts.trajectory_folder.getLast? = some nc := by
    cases h : env.splitOuts.trajectory_folder.getLast? with
    | some nc => exact ⟨nc, rfl⟩
    | none =>
      rw [List.getLast?_eq_none_iff] at h
      exact absurd h hfolder
  have hextract : extract_final_structure env.splitOuts.trajectory_folder =
      .ok ⟨nc.2 ++ "\n"⟩ := by
    unfold extract_final_structure
    rw [hnc]
  have hdiff := calculate_difference_of_mace env.optOuts.energy env.mlipResults e hml
  unfold runWorkChain outline
  simp only [runSteps, runStep, ctxGet, hextract, hdiff, initWCCtx]
  unfold wcFinalCtx wcFinalOuts
  rw [hnc]
  rfl

/-- C4: the workchain outline is exactly the six steps geometry
optimisation, trajectory splitting, final-structure extraction, MLIP
single point, energy difference, result emission, in that order; and a
run in that order succeeds, each step reading from the context only
attributes that earlier steps have set (a step consuming a later output
would hit an unset attribute and raise `AttributeError`).  The data
hypotheses are that the split produced at least one file and that the
MLIP results dictionary holds the `info.mace_mp_energy` number. -/
theorem clf_ultra_outline_order (env : WCEnv) (e : ℚ)
    (hfolder : env.splitOuts.trajectory_folder ≠ [])
    (hml : maceEnergyOf env.mlipResults = some e) :
    outline = [.optimise, .generate_xyz_files, .extract_final_structure,
      .mlip_sp, .calculate_energy_difference, .result] ∧
    runWorkChain env = .ok (wcFinalCtx env e, wcFinalOuts env e) :=
  ⟨rfl, runWorkChain_ok env e hfolder hml⟩

/-- C4 witness: a concrete environment with one trajectory file and an
MLIP dictionary holding the MACE energy. -/
theorem clf_ultra_outline_order_witness :
    outline = [.optimise, .generate_xyz_files, .extract_final_structure,
      .mlip_sp, .calculate_energy_difference, .result] ∧
    runWorkChain
      ⟨⟨⟨"u1", "path.xyz"⟩, ⟨"u2", "path_force.xyz"⟩, 5⟩,
       ⟨[("trajectory_000.xyz", "c0")]⟩,
       .dict [("info", .dict [("mace_mp_energy", .num 2)])]⟩ =
      .ok (wcFinalCtx
        ⟨⟨⟨"u1", "path.xyz"⟩, ⟨"u2", "path_force.xyz"⟩, 5⟩,
         ⟨[("trajectory_000.xyz", "c0")]⟩,
         .dict [("info", .dict [("mace_mp_energy", .num 2)])]⟩ 2,
        wcFinalOuts
        ⟨⟨⟨"u1", "path.xyz"⟩, ⟨"u2", "path_force.xyz"⟩, 5⟩,
         ⟨[("trajectory_000.xyz", "c0")]⟩,
         .dict [("info", .dict [("mace_mp_energy", .num 2)])]⟩ 2) :=
  clf_ultra_outline_order
    ⟨⟨⟨"u1", "path.xyz"⟩, ⟨"u2", "path_force.xyz"⟩, 5⟩,
     ⟨[("trajectory_000.xyz", "c0")]⟩,
     .dict [("info", .dict [("mace_mp_energy", .num 2)])]⟩ 2
    (by decide) (by decide)

/-- C7: for every `qm_energy` and every results dictionary holding the
number at the key path `info.mace_mp_energy`, `calculate_difference`
returns that difference, and a workchain run exposes exactly this value
under the output name `energy_difference`. -/
theorem calculate_difference_spec (qm e : ℚ) (ml : PyObj) (env : WCEnv)
    (h : maceEnergyOf ml = some e)
    (henergy : env.optOuts.energy = qm) (hres : env.mlipResults = ml)
    (hfolder : env.splitOuts.trajectory_folder ≠ []) :
    calculate_difference qm ml = .ok (qm - e) ∧
    runWorkChain env = .ok (wcFinalCtx env e, wcFinalOuts env e) ∧
    List.lookup "energy_difference" (wcFinalOuts env e) =
      some (.energy (qm - e)) := by
  subst henergy hres
  refine ⟨calculate_difference_of_mace env.optOuts.energy env.mlipResults e h,
    runWorkChain_ok env e hfolder h, ?_⟩
  rfl

/-- C7 witness: `qm_energy = 5`, MACE energy 2, difference 3. -/
theorem calculate_difference_spec_witness :
    calculate_difference 5 (.dict [("info", .dict [("mace_mp_energy", .num 2)])])
        = .ok 3 ∧
    List.lookup "energy_difference"
      (wcFinalOuts
        ⟨⟨⟨"u1", "path.xyz"⟩, ⟨"u2", "path_force.xyz"⟩, 5⟩,
         ⟨[("trajectory_000.xyz", "c0")]⟩,
         .dict [("info", .dict [("mace_mp_energy", .num 2)])]⟩ 2) =
      some (.energy 3) := by
  have h := calculate_difference_spec 5 2
    (.dict [("info", .dict [("mace_mp_energy", .num 2)])])
    ⟨⟨⟨"u1", "path.xyz"⟩, ⟨"u2", "path_force.xyz"⟩, 5⟩,
     ⟨[("trajectory_000.xyz", "c0")]⟩,
     .dict [("info", .dict [("mace_mp_energy", .num 2)])]⟩
    (by decide) rfl rfl (by decide)
  have h5 : (5 : ℚ) - 2 = 3 := by norm_num
  exact ⟨h5 ▸ h.1, h5 ▸ h.2.2⟩

/-- C9: `extract_final_structure` takes the last entry of the folder
object list and parses exactly that file (with a newline appended); on
an empty folder the `[-1]` subscription raises an uncaught
`IndexError`. -/
theorem extract_final_structure_last_object (folder : List (String × String)) :
    (folder = [] → extract_final_structure folder = .raise .indexError) ∧
    (∀ nc, folder.getLast? = some nc →
      extract_final_structure folder = .ok ⟨nc.2 ++ "\n"⟩) := by
  constructor
  · intro h
    subst h
    rfl
  · intro nc h
    unfold extract_final_structure
    rw [h]

/-- C9 witness: the empty folder raises, and a two-file folder parses
the content of the last-listed file. -/
theorem extract_final_structure_last_object_witness :
    extract_final_structure [] = .raise .indexError ∧
    extract_final_structure [("traj_000.xyz", "A"), ("traj_001.xyz", "B")]
      = .ok ⟨"B" ++ "\n"⟩ :=
  ⟨(extract_final_structure_last_object []).1 rfl,
   (extract_final_structure_last_object
      [("traj_000.xyz", "A"), ("traj_001.xyz", "B")]).2
    ("traj_001.xyz", "B") (by decide)⟩

/-! ## The input validator of `ChemShellCalculation`

The class `ChemShellCalculation` lives in
`aiida_chemshell/calculations/base.py`, which is not among the sources;
only the enums it checks against (`utils.py`) and its test suite
(`tests/test_error_codes.py`) are.  The validators below are therefore
modelled from the spec. -/

/-- Modelled from the spec: the theory-name check of
`ChemShellCalculation` (in the missing `calculations/base.py`), which
"cross-references the requested theory name against the QM theory enum"
and raises `ValueError` for an unknown name.  The test suite fixes the
lookup to be case-insensitive: `{"theory": "NWChem"}` and
`{"theory": "PySCF"}` are accepted while `{"theory": "INVALID"}` raises
`ValueError`, so the requested name is uppercased before the enum
member lookup. -/
def validateQMTheory (t : String) : PyResult Unit :=
  if pyUpper t ∈ qmTheoryNames then .ok ()
  else .raise (.valueError ("The given QM theory key (" ++ t ++ ") is not valid."))

/-- Modelled from the spec: the MM counterpart of `validateQMTheory`,
checking against the MM theory enum (tests: `{"theory": "DL_POLY"}` is
accepted, `{"theory": "INVALID"}` raises `ValueError`). -/
def validateMMTheory (t : String) : PyResult Unit :=
  if pyUpper t ∈ mmTheoryNames then .ok ()
  else .raise (.valueError ("The given MM theory key (" ++ t ++ ") is not valid."))

/-- C5 counterexample: the theory value `"NWChem"` is not the name of a
member of `ChemShellQMTheory` (the members are upper case), yet job
construction accepts it — the test suite submits `{"theory": "NWChem"}`
and `{"theory": "PySCF"}` successfully — so a non-member-name value does
not always raise `ValueError`. -/
theorem qm_theory_case_counterexample :
    validateQMTheory "NWChem" = .ok () ∧ "NWChem" ∉ qmTheoryNames :=
  ⟨by decide, by decide⟩

/-- C5 (amended): construction raises `ValueError` exactly when the
uppercased theory value is not a member name of the corresponding enum:
case-insensitive membership, not literal membership. -/
theorem theory_validation_amended (tq tm : String) :
    (pyUpper tq ∉ qmTheoryNames →
      validateQMTheory tq =
        .raise (.valueError ("The given QM theory key (" ++ tq ++ ") is not valid."))) ∧
    (pyUpper tq ∈ qmTheoryNames → validateQMTheory tq = .ok ()) ∧
    (pyUpper tm ∉ mmTheoryNames →
      validateMMTheory tm =
        .raise (.valueError ("The given MM theory key (" ++ tm ++ ") is not valid."))) ∧
    (pyUpper tm ∈ mmTheoryNames → validateMMTheory tm = .ok ()) := by
  refine ⟨fun h => ?_, fun h => ?_, fun h => ?_, fun h => ?_⟩
  · unfold validateQMTheory
    rw [if_neg h]
  · unfold validateQMTheory
    rw [if_pos h]
  · unfold validateMMTheory
    rw [if_neg h]
  · unfold validateMMTheory
    rw [if_pos h]

/-- C5 witness: the invalid name the test suite uses, for both enums. -/
theorem theory_validation_amended_witness :
    validateQMTheory "INVALID" =
      .raise (.valueError ("The given QM theory key (" ++ "INVALID" ++ ") is not valid.")) ∧
    validateMMTheory "INVALID" =
      .raise (.valueError ("The given MM theory key (" ++ "INVALID" ++ ") is not valid.")) :=
  ⟨(theory_validation_amended "INVALID" "INVALID").1 (by decide),
   (theory_validation_amended "INVALID" "INVALID").2.2.1 (by decide)⟩

/-- A typed Python value in a parameter dictionary, for validation. -/
inductive PyValue where
  | vBool (b : Bool)
  | vInt (n : Int)
  | vFloat (q : ℚ)
  | vStr (s : String)
  deriving DecidableEq, Repr

/-- The value type a parameter key requires. -/
inductive PyType where
  | bool
  | float
  | num
  | str
  deriving DecidableEq, Repr

/-- Does a value satisfy a required type?  `num` admits ints and floats
(the tests pass `"charge": 0` and `"charge": -1.0` successfully), while
`float` is strict (the tests require `"mult": "1"` to be rejected as
needing type float). -/
def matchesType : PyType → PyValue → Bool
  | .bool, .vBool _ => true
  | .float, .vFloat _ => true
  | .num, .vInt _ => true
  | .num, .vFloat _ => true
  | .str, .vStr _ => true
  | _, _ => false

/-- The human description of a required type inside an error message. -/
def typeReq : PyType → String
  | .bool => "a Boolean value"
  | .float => "of type float"
  | .num => "a numeric value"
  | .str => "a string value"

/-- The name of the required type, which C6 requires the error message
to state. -/
def typeName : PyType → String
  | .bool => "Boolean"
  | .float => "float"
  | .num => "numeric"
  | .str => "string"

/-- The message raised for an allowed key whose value has the wrong
type (tests match the substrings "must be a Boolean value" and
"must be of type float"). -/
def typeErrMsg (k : String) (ty : PyType) : String :=
  "The \x27" ++ k ++ "\x27 parameter must be " ++ typeReq ty ++ "."

/-- The message raised when a key is outside the allow-list (tests
match the substring "parameter keys are invalid"). -/
def invalidKeysMsg : String :=
  "The given parameter keys are invalid for the requested calculation."

/-- Are all keys of the dictionary (apart from `theory`) inside the
allow-list? -/
def keysOK (allowed : List (String × PyType))
    (params : List (String × PyValue)) : Bool :=
  params.all fun kv => kv.1 == "theory" || (allowed.map Prod.fst).contains kv.1

/-- The first entry whose key is allowed but whose value has the wrong
type, with its required type. -/
def firstTypeErr (allowed : List (String × PyType))
    (params : List (String × PyValue)) : Option (String × PyType) :=
  params.findSome? fun kv =>
    if kv.1 == "theory" then none
    else
      match List.lookup kv.1 allowed with
      | some ty => if matchesType ty kv.2 then none else some (kv.1, ty)
      | none => none

/-- Modelled from the spec: the parameter validator of
`ChemShellCalculation` (in the missing `calculations/base.py`), which
"maps requested theory names to allowed parameter key-sets and types":
it rejects any key outside the allow-list of the requested
theory/calculation with a `ValueError` reporting invalid parameter
keys, and then rejects the first allowed key whose value has the
wrong type with a `ValueError` stating the required type, as the test
suite exercises. -/
def validateParameters (allowed : List (String × PyType))
    (params : List (String × PyValue)) : PyResult Unit :=
  if keysOK allowed params then
    match firstTypeErr allowed params with
    | some kt => .raise (.valueError (typeErrMsg kt.1 kt.2))
    | none => .ok ()
  else .raise (.valueError invalidKeysMsg)

theorem typeName_infix (k : String) (ty : PyType) :
    (typeName ty).data <:+: (typeErrMsg k ty).data := by
  have h1 : (typeName ty).data <:+: (typeReq ty).data := by
    cases ty <;> decide
  refine h1.trans ?_
  have h2 : (typeErrMsg k ty).data =
      ("The \x27" ++ k ++ "\x27 parameter must be ").data ++
        (typeReq ty).data ++ ".".data := by
    simp [typeErrMsg, data_append]
  rw [h2]
  exact List.infix_append _ _ _

/-- C6: for every allow-list and every parameter dictionary, a key
outside the allow-list (other than `theory`) makes construction raise a
`ValueError` whose message reports that the parameter keys are invalid,
and — when all keys are allowed — a key whose value has the wrong type
makes it raise a `ValueError` stating the required type. -/
theorem parameter_validation_spec (allowed : List (String × PyType))
    (params : List (String × PyValue)) :
    ((∃ kv ∈ params, (kv.1 == "theory") = false ∧
        (allowed.map Prod.fst).contains kv.1 = false) →
      validateParameters allowed params = .raise (.valueError invalidKeysMsg) ∧
      ("parameter keys are invalid").data <:+: invalidKeysMsg.data) ∧
    (keysOK allowed params = true →
      ∀ k ty, firstTypeErr allowed params = some (k, ty) →
        validateParameters allowed params =
          .raise (.valueError (typeErrMsg k ty)) ∧
        (typeName ty).data <:+: (typeErrMsg k ty).data) := by
  constructor
  · rintro ⟨kv, hmem, hth, hnc⟩
    have hfalse : keysOK allowed params = false := by
      apply List.all_eq_false.mpr
      refine ⟨kv, hmem, ?_⟩
      rw [Bool.not_eq_true]
      show (kv.1 == "theory" || (allowed.map Prod.fst).contains kv.1) = false
      rw [hth, hnc]
      rfl
    refine ⟨?_, by decide⟩
    unfold validateParameters
    rw [hfalse]
    rfl
  · intro hkeys k ty hfirst
    refine ⟨?_, typeName_infix k ty⟩
    unfold validateParameters
    rw [hkeys, hfirst]
    rfl

/-- C6 witness: the misspelt key `gadents` against the calculation
allow-list raises the invalid-keys error, and the string-valued
`gradients` raises the Boolean type error; this mirrors
`test_sp_calculation_input_validation`. -/
theorem parameter_validation_spec_witness :
    validateParameters [("gradients", .bool), ("hessian", .bool)]
        [("gadents", .vBool true)] = .raise (.valueError invalidKeysMsg) ∧
    validateParameters [("gradients", .bool), ("hessian", .bool)]
        [("gradients", .vStr "true")] =
      .raise (.valueError (typeErrMsg "gradients" .bool)) := by
  have h1 := (parameter_validation_spec [("gradients", .bool), ("hessian", .bool)]
    [("gadents", .vBool true)]).1
    ⟨("gadents", .vBool true), by decide, by decide, by decide⟩
  have h2 := (parameter_validation_spec [("gradients", .bool), ("hessian", .bool)]
    [("gradients", .vStr "true")]).2 (by decide) "gradients" .bool (by decide)
  exact ⟨h1.1, h2.1⟩

end AiidaChemShell
